import Mathlib

/-!
Verification of the target-hue-shootout client against its source.

The repository is a browser game client over a hosted relational database.
We embed the game logic of the three page components (`Index`, `Lobby`,
`Game`) and the relevant facts of the database migration as pure Lean
functions.  JavaScript numbers are modelled as rationals (`ℚ`), integer
columns as `ℤ`, strings used as lookup keys as `List Char`, and the
`Math.random()` stream as an explicit parameter.  Database writes and UI
effects are reified as data so that theorems can speak about exactly which
rows and columns an operation touches.
-/

namespace TargetHueShootout

/-! ## Data model

Mirrors the client-side interfaces `Target`, `Player`, `GameState` in the
`Game` component and the row shapes of the migration
(`targets`, `game_players`, `lobbies`). -/

inductive GameStatus
  | playing
  | wave_complete
  | game_over
deriving DecidableEq, Repr

/-- A row of the `targets` table as the `Game` component sees it. -/
structure Target where
  id : Nat
  position_x : ℚ
  position_y : ℚ
  color_intensity : ℚ
  health : ℤ
  points : ℤ
  is_active : Bool
deriving DecidableEq, Repr

/-- A row of the `game_players` table as the `Game` component sees it. -/
structure PlayerRow where
  id : Nat
  lobby_id : Nat
  player_id : Nat
  position_x : ℚ
  position_y : ℚ
  health : ℤ
  score : ℤ
  is_alive : Bool
deriving DecidableEq, Repr

/-- A row of the `lobbies` table as the `Lobby` component sees it. -/
structure LobbyRow where
  id : Nat
  code : List Char
  host_id : Nat
  current_players : ℤ
  max_players : ℤ
  status : String
deriving DecidableEq, Repr

/-! ## Target generation (`generateTargets` in the `Game` component)

`generateTargets` draws `Math.random()` three times per target; we pass the
random stream in as a function from the loop index to the three draws. -/

/-- One iteration's draws of `Math.random()` inside the `generateTargets`
loop: the factors for `position_x`, `position_y`, and `colorIntensity`. -/
structure RandTriple where
  rx : ℚ
  ry : ℚ
  ci : ℚ
deriving DecidableEq, Repr

/-- The row `generateTargets` builds for one loop iteration:
`position_x = Math.random() * 800`, `position_y = Math.random() * 600`,
`points = Math.ceil((1 - colorIntensity) * 10)`,
`health = Math.ceil(colorIntensity * 3) + 1`, `is_active = true`. -/
structure NewTarget where
  position_x : ℚ
  position_y : ℚ
  color_intensity : ℚ
  health : ℤ
  points : ℤ
  is_active : Bool
deriving DecidableEq, Repr

def mkGeneratedTarget (r : RandTriple) : NewTarget :=
  { position_x := r.rx * 800
    position_y := r.ry * 600
    color_intensity := r.ci
    health := ⌈r.ci * 3⌉ + 1
    points := ⌈(1 - r.ci) * 10⌉
    is_active := true }

/-- `generateTargets`: `targetsToGenerate = Math.min(5 + gameState.wave, 15)`,
then one `mkGeneratedTarget` per loop index `i = 0 .. targetsToGenerate - 1`;
the whole batch is inserted at once. -/
def generateTargets (wave : Nat) (rand : Nat → RandTriple) : List NewTarget :=
  (List.range (min (5 + wave) 15)).map (fun i => mkGeneratedTarget (rand i))

/-- Claim C3: for every wave number `w`, `generateTargets` inserts exactly
`min (5 + w) 15` targets; hence never more than 15, and — since the wave
counter starts at 1 and only increments — at least 6 per generation. -/
theorem generateTargets_count (wave : Nat) (rand : Nat → RandTriple) :
    (generateTargets wave rand).length = min (5 + wave) 15 ∧
    (generateTargets wave rand).length ≤ 15 ∧
    (1 ≤ wave → 6 ≤ (generateTargets wave rand).length) := by
  have hlen : (generateTargets wave rand).length = min (5 + wave) 15 := by
    simp [generateTargets]
  refine ⟨hlen, ?_, ?_⟩
  · rw [hlen]; omega
  · intro hw; rw [hlen]; omega

theorem generateTargets_count_witness :
    1 ≤ 1 ∧ 6 ≤ (generateTargets 1 (fun _ => ⟨0, 0, 0⟩)).length :=
  ⟨by decide, (generateTargets_count 1 (fun _ => ⟨0, 0, 0⟩)).2.2 (by decide)⟩

/-- Claim C4: with `Math.random()` drawing from `[0, 1)`, every generated
target has `color_intensity` in `[0, 1)` (hence within the database check
`0 <= color_intensity <= 1`), `points = ⌈(1 - color_intensity) * 10⌉`
between 1 and 10, and `health = ⌈color_intensity * 3⌉ + 1` between 1 and 4. -/
theorem generateTargets_fields (wave : Nat) (rand : Nat → RandTriple)
    (hr : ∀ i, 0 ≤ (rand i).ci ∧ (rand i).ci < 1)
    (t : NewTarget) (ht : t ∈ generateTargets wave rand) :
    0 ≤ t.color_intensity ∧ t.color_intensity < 1 ∧ t.color_intensity ≤ 1 ∧
    t.points = ⌈(1 - t.color_intensity) * 10⌉ ∧ 1 ≤ t.points ∧ t.points ≤ 10 ∧
    t.health = ⌈t.color_intensity * 3⌉ + 1 ∧ 1 ≤ t.health ∧ t.health ≤ 4 := by
  simp only [generateTargets, List.mem_map, List.mem_range] at ht
  obtain ⟨i, _, rfl⟩ := ht
  obtain ⟨h0, h1⟩ := hr i
  set c : ℚ := (rand i).ci with hc
  have hci : (mkGeneratedTarget (rand i)).color_intensity = c := rfl
  refine ⟨h0, h1, le_of_lt h1, rfl, ?_, ?_, rfl, ?_, ?_⟩
  · have hpos : (0 : ℚ) < (1 - c) * 10 := by nlinarith
    have := Int.ceil_pos.mpr hpos
    simpa [mkGeneratedTarget] using this
  · have hle : (1 - c) * 10 ≤ ((10 : ℤ) : ℚ) := by push_cast; nlinarith
    have := Int.ceil_le.mpr hle
    simpa [mkGeneratedTarget] using this
  · have hnn : (0 : ℚ) ≤ c * 3 := by nlinarith
    have := Int.ceil_nonneg hnn
    show 1 ≤ ⌈c * 3⌉ + 1
    omega
  · have hle : c * 3 ≤ ((3 : ℤ) : ℚ) := by push_cast; nlinarith
    have h3 := Int.ceil_le.mpr hle
    show ⌈c * 3⌉ + 1 ≤ 4
    omega

theorem generateTargets_fields_witness :
    1 ≤ (mkGeneratedTarget ⟨1/2, 1/2, 1/2⟩).points ∧
    (mkGeneratedTarget ⟨1/2, 1/2, 1/2⟩).health ≤ 4 :=
  ⟨(generateTargets_fields 1 (fun _ => ⟨1/2, 1/2, 1/2⟩)
      (fun _ => by norm_num) (mkGeneratedTarget ⟨1/2, 1/2, 1/2⟩)
      (by simp [generateTargets])).2.2.2.2.1,
   (generateTargets_fields 1 (fun _ => ⟨1/2, 1/2, 1/2⟩)
      (fun _ => by norm_num) (mkGeneratedTarget ⟨1/2, 1/2, 1/2⟩)
      (by simp [generateTargets])).2.2.2.2.2.2.2.2⟩

/-! ## Wave progression (`fetchGameState` and `nextWave` in `Game`)

`fetchGameState` stores the fetched active targets; when the fetched list is
empty it sets the status to `wave_complete` and schedules `nextWave` with a
2000 ms `setTimeout`.  `nextWave` bumps the wave counter, resets the status
to `playing` and runs `generateTargets`; that closure reads the wave value
the component held when the timeout was scheduled. -/

structure WaveState where
  wave : Nat
  gameStatus : GameStatus
  targets : List Target
deriving DecidableEq, Repr

/-- The targets half of `fetchGameState`: the new component state and, when
a timeout was scheduled, its delay in milliseconds. -/
def fetchGameStateTargets (s : WaveState) (fetched : List Target) :
    WaveState × Option Nat :=
  if fetched.length = 0 then
    ({ s with targets := fetched, gameStatus := GameStatus.wave_complete }, some 2000)
  else
    ({ s with targets := fetched }, none)

/-- `nextWave`: the updated component state and the batch of targets that
`generateTargets` inserts. -/
def nextWave (s : WaveState) (rand : Nat → RandTriple) :
    WaveState × List NewTarget :=
  ({ s with wave := s.wave + 1, gameStatus := GameStatus.playing },
   generateTargets s.wave rand)

/-- Claim C2: a fetch that finds zero active targets sets the status to
`wave_complete` and schedules `nextWave` after 2000 ms; `nextWave` then
increments the wave by exactly 1, resets the status to `playing`, and
generates a nonempty batch of new targets. -/
theorem wave_progression (s : WaveState) (fetched : List Target)
    (rand : Nat → RandTriple) (h : fetched = []) :
    (fetchGameStateTargets s fetched).1.gameStatus = GameStatus.wave_complete ∧
    (fetchGameStateTargets s fetched).2 = some 2000 ∧
    (nextWave (fetchGameStateTargets s fetched).1 rand).1.wave = s.wave + 1 ∧
    (nextWave (fetchGameStateTargets s fetched).1 rand).1.gameStatus =
      GameStatus.playing ∧
    0 < (nextWave (fetchGameStateTargets s fetched).1 rand).2.length := by
  subst h
  refine ⟨rfl, rfl, rfl, rfl, ?_⟩
  show 0 < (generateTargets s.wave rand).length
  have := (generateTargets_count s.wave rand).1
  omega

theorem wave_progression_witness :
    (nextWave (fetchGameStateTargets ⟨3, GameStatus.playing, []⟩ []).1
        (fun _ => ⟨0, 0, 0⟩)).1.wave = 3 + 1 :=
  (wave_progression ⟨3, GameStatus.playing, []⟩ [] (fun _ => ⟨0, 0, 0⟩) rfl).2.2.1

/-! ## Shooting (`shoot` in `Game`)

`shoot(targetX, targetY)` scans `gameState.targets` with `Array.find` for
the first target at Euclidean distance `< 25` of the click.  The source
compares `Math.sqrt(dx² + dy²) < 25`; both sides are nonnegative, so we
embed the equivalent squared comparison `dx² + dy² < 25²`. -/

def targetHitBy (targetX targetY : ℚ) (t : Target) : Bool :=
  decide ((t.position_x - targetX) ^ 2 + (t.position_y - targetY) ^ 2 < 25 ^ 2)

/-- A row of the `game_events` insert issued by `shoot`. -/
structure GameEvent where
  event_type : String
  target_id : Nat
  damage : ℤ
  points_earned : ℤ
deriving DecidableEq, Repr

/-- `shoot`: returns the targets table after the update, the shooting
player's score column, and the inserted `game_events` rows.  The database
updates key on `hitTarget.id`; we apply them to every row with that id. -/
def shoot (myScore : ℤ) (targets : List Target) (targetX targetY : ℚ) :
    List Target × ℤ × List GameEvent :=
  match targets.find? (targetHitBy targetX targetY) with
  | none => (targets, myScore, [])
  | some hitTarget =>
      let newHealth := hitTarget.health - 1
      if newHealth ≤ 0 then
        (targets.map (fun t =>
           if t.id = hitTarget.id then { t with is_active := false } else t),
         myScore + hitTarget.points,
         [{ event_type := "target_destroyed", target_id := hitTarget.id,
            damage := 1, points_earned := hitTarget.points }])
      else
        (targets.map (fun t =>
           if t.id = hitTarget.id then { t with health := newHealth } else t),
         myScore,
         [{ event_type := "hit", target_id := hitTarget.id,
            damage := 1, points_earned := 0 }])

theorem find?_of_first {α : Type} (p : α → Bool) :
    ∀ (l1 : List α) (a : α) (l2 : List α),
      (∀ x ∈ l1, p x = false) → p a = true →
      (l1 ++ a :: l2).find? p = some a := by
  intro l1
  induction l1 with
  | nil => intro a l2 _ ha; simp [List.find?, ha]
  | cons x xs ih =>
      intro a l2 h1 ha
      have hx : p x = false := h1 x (List.mem_cons_self x xs)
      simp only [List.cons_append, List.find?, hx]
      exact ih a l2 (fun y hy => h1 y (List.mem_cons_of_mem x hy)) ha

/-- Claim C1: `shoot` damages at most one target — the first one in the
current target list strictly within 25 px of the click.  If its health
minus 1 is `≤ 0` it is deactivated and the score grows by its points;
otherwise only its health drops by 1 and the score is unchanged.  With no
target in range, nothing changes. -/
theorem shoot_damages_first_hit_target (myScore : ℤ) (targets : List Target)
    (x y : ℚ) :
    ((∀ t ∈ targets, targetHitBy x y t = false) →
        shoot myScore targets x y = (targets, myScore, [])) ∧
    (∀ pre post ht, targets = pre ++ ht :: post →
        (∀ t ∈ pre, targetHitBy x y t = false) → targetHitBy x y ht = true →
        (shoot myScore targets x y).1 =
          targets.map (fun t =>
            if t.id = ht.id then
              (if ht.health - 1 ≤ 0 then { t with is_active := false }
               else { t with health := ht.health - 1 })
            else t) ∧
        (∀ i, ∀ h1 : i < (shoot myScore targets x y).1.length,
           ∀ h2 : i < targets.length,
           (targets.get ⟨i, h2⟩).id ≠ ht.id →
           (shoot myScore targets x y).1.get ⟨i, h1⟩ = targets.get ⟨i, h2⟩) ∧
        (ht.health - 1 ≤ 0 →
           (shoot myScore targets x y).2.1 = myScore + ht.points) ∧
        (0 < ht.health - 1 → (shoot myScore targets x y).2.1 = myScore)) := by
  constructor
  · intro hmiss
    have hfind : targets.find? (targetHitBy x y) = none :=
      List.find?_eq_none.mpr (fun t ht' => by simp [hmiss t ht'])
    simp [shoot, hfind]
  · intro pre post ht hsplit hpre hhit
    have hfind : targets.find? (targetHitBy x y) = some ht := by
      rw [hsplit]; exact find?_of_first _ pre ht post hpre hhit
    have hres : shoot myScore targets x y =
        (targets.map (fun t =>
            if t.id = ht.id then
              (if ht.health - 1 ≤ 0 then { t with is_active := false }
               else { t with health := ht.health - 1 })
            else t),
         if ht.health - 1 ≤ 0 then myScore + ht.points else myScore,
         [if ht.health - 1 ≤ 0 then
            { event_type := "target_destroyed", target_id := ht.id,
              damage := 1, points_earned := ht.points }
          else
            { event_type := "hit", target_id := ht.id,
              damage := 1, points_earned := 0 }]) := by
      rw [shoot, hfind]
      by_cases hk : ht.health - 1 ≤ 0
      · simp only [hk, if_true, if_pos hk]
      · simp only [hk, if_false, if_neg hk]
    refine ⟨by rw [hres], ?_, ?_, ?_⟩
    · intro i h1 h2 hid
      have hfst : (shoot myScore targets x y).1 = targets.map (fun t =>
          if t.id = ht.id then
            (if ht.health - 1 ≤ 0 then { t with is_active := false }
             else { t with health := ht.health - 1 })
          else t) := by rw [hres]
      revert h1
      rw [hfst]
      intro h1
      simp only [List.get_eq_getElem, List.getElem_map]
      exact if_neg hid
    · intro hk; rw [hres]; simp [hk]
    · intro hk; rw [hres]; simp [show ¬ht.health - 1 ≤ 0 by omega]

def witnessTargetFar : Target :=
  { id := 0, position_x := 300, position_y := 300, color_intensity := 1/2,
    health := 2, points := 5, is_active := true }

def witnessTargetNear : Target :=
  { id := 1, position_x := 110, position_y := 100, color_intensity := 1/2,
    health := 2, points := 5, is_active := true }

theorem shoot_damages_first_hit_target_witness :
    (shoot 0 [witnessTargetFar, witnessTargetNear] 100 100).2.1 = 0 :=
  ((shoot_damages_first_hit_target 0 [witnessTargetFar, witnessTargetNear]
      100 100).2 [witnessTargetFar] [] witnessTargetNear rfl
      (by
        intro t ht'
        simp only [List.mem_singleton] at ht'
        subst ht'
        simp only [targetHitBy, witnessTargetFar, decide_eq_false_iff_not]
        norm_num)
      (by
        simp only [targetHitBy, witnessTargetNear, decide_eq_true_eq]
        norm_num)).2.2.2 (by norm_num [witnessTargetNear])

/-! ## Movement (`updatePlayerPosition` in `Game`)

Each frame, the pressed keys (lowercased) move the player at 200 px/s,
the result is clamped to `[20, 780] × [20, 580]`, and a database update of
`position_x`/`position_y` keyed on `(lobby_id, player_id)` is issued only
when the clamped position differs from the player's current one. -/

def moveSpeed : ℚ := 200

def newPosX (p : PlayerRow) (keys : List String) (dt : ℚ) : ℚ :=
  let x0 := p.position_x
  let x1 := if keys.contains "a" || keys.contains "arrowleft"
    then x0 - moveSpeed * dt else x0
  let x2 := if keys.contains "d" || keys.contains "arrowright"
    then x1 + moveSpeed * dt else x1
  max 20 (min 780 x2)

def newPosY (p : PlayerRow) (keys : List String) (dt : ℚ) : ℚ :=
  let y0 := p.position_y
  let y1 := if keys.contains "w" || keys.contains "arrowup"
    then y0 - moveSpeed * dt else y0
  let y2 := if keys.contains "s" || keys.contains "arrowdown"
    then y1 + moveSpeed * dt else y1
  max 20 (min 580 y2)

/-- `updatePlayerPosition`: `some (newX, newY)` is the issued position
update, `none` means no database write this frame. -/
def updatePlayerPosition (p : PlayerRow) (keys : List String) (dt : ℚ) :
    Option (ℚ × ℚ) :=
  if newPosX p keys dt ≠ p.position_x ∨ newPosY p keys dt ≠ p.position_y then
    some (newPosX p keys dt, newPosY p keys dt)
  else none

/-- The database `update({position_x, position_y})` keyed on
`(lobby_id, player_id)` applied to the `game_players` table. -/
def applyPositionUpdate (rows : List PlayerRow) (lobbyId userId : Nat)
    (nx ny : ℚ) : List PlayerRow :=
  rows.map (fun r =>
    if r.lobby_id = lobbyId ∧ r.player_id = userId then
      { r with position_x := nx, position_y := ny }
    else r)

/-- Claim C8: a write is issued exactly when the computed position differs
from the current one, and the write changes only `position_x`/`position_y`
of the current player's own row: every row keeps its `health`, `score` and
`is_alive`, and rows of other players are untouched. -/
theorem updatePlayerPosition_minimal_write (p : PlayerRow) (keys : List String)
    (dt : ℚ) (rows : List PlayerRow) (lobbyId userId : Nat) :
    (updatePlayerPosition p keys dt = none ↔
      (newPosX p keys dt = p.position_x ∧ newPosY p keys dt = p.position_y)) ∧
    (∀ nx ny, updatePlayerPosition p keys dt = some (nx, ny) →
      nx = newPosX p keys dt ∧ ny = newPosY p keys dt ∧
      ¬(nx = p.position_x ∧ ny = p.position_y) ∧
      (applyPositionUpdate rows lobbyId userId nx ny).length = rows.length ∧
      (∀ i, ∀ h1 : i < (applyPositionUpdate rows lobbyId userId nx ny).length,
        ∀ h2 : i < rows.length,
        ((applyPositionUpdate rows lobbyId userId nx ny).get ⟨i, h1⟩).health =
            (rows.get ⟨i, h2⟩).health ∧
        ((applyPositionUpdate rows lobbyId userId nx ny).get ⟨i, h1⟩).score =
            (rows.get ⟨i, h2⟩).score ∧
        ((applyPositionUpdate rows lobbyId userId nx ny).get ⟨i, h1⟩).is_alive =
            (rows.get ⟨i, h2⟩).is_alive ∧
        (¬((rows.get ⟨i, h2⟩).lobby_id = lobbyId ∧
            (rows.get ⟨i, h2⟩).player_id = userId) →
          (applyPositionUpdate rows lobbyId userId nx ny).get ⟨i, h1⟩ =
            rows.get ⟨i, h2⟩))) := by
  constructor
  · constructor
    · intro hnone
      by_contra hne
      have : updatePlayerPosition p keys dt =
          some (newPosX p keys dt, newPosY p keys dt) := by
        unfold updatePlayerPosition
        rw [if_pos]
        push_neg at hne
        by_cases hx : newPosX p keys dt = p.position_x
        · exact Or.inr (hne hx)
        · exact Or.inl hx
      rw [this] at hnone
      exact Option.noConfusion hnone
    · intro heq
      unfold updatePlayerPosition
      rw [if_neg]
      push_neg
      exact heq
  · intro nx ny hsome
    have hcond : (newPosX p keys dt ≠ p.position_x ∨
        newPosY p keys dt ≠ p.position_y) ∧
        nx = newPosX p keys dt ∧ ny = newPosY p keys dt := by
      unfold updatePlayerPosition at hsome
      by_cases hc : newPosX p keys dt ≠ p.position_x ∨
          newPosY p keys dt ≠ p.position_y
      · rw [if_pos hc] at hsome
        obtain ⟨h1, h2⟩ := Prod.mk.injEq .. ▸ Option.some.injEq .. ▸ hsome
        exact ⟨hc, h1.symm, h2.symm⟩
      · rw [if_neg hc] at hsome
        exact absurd hsome (Option.noConfusion ·)
    obtain ⟨hc, hnx, hny⟩ := hcond
    refine ⟨hnx, hny, ?_, by simp [applyPositionUpdate], ?_⟩
    · rintro ⟨hx, hy⟩
      rw [hnx] at hx; rw [hny] at hy
      rcases hc with h | h
      · exact h hx
      · exact h hy
    · intro i h1 h2
      have hmem : (applyPositionUpdate rows lobbyId userId nx ny).get ⟨i, h1⟩ =
          (if (rows.get ⟨i, h2⟩).lobby_id = lobbyId ∧
              (rows.get ⟨i, h2⟩).player_id = userId then
            { rows.get ⟨i, h2⟩ with position_x := nx, position_y := ny }
          else rows.get ⟨i, h2⟩) := by
        simp only [applyPositionUpdate, List.get_eq_getElem, List.getElem_map]
      rw [hmem]
      by_cases hkey : (rows.get ⟨i, h2⟩).lobby_id = lobbyId ∧
          (rows.get ⟨i, h2⟩).player_id = userId
      · refine ⟨?_, ?_, ?_, fun hko => absurd hkey hko⟩ <;> rw [if_pos hkey]
      · refine ⟨?_, ?_, ?_, fun _ => ?_⟩ <;> rw [if_neg hkey]

def witnessPlayer : PlayerRow :=
  { id := 0, lobby_id := 7, player_id := 9, position_x := 100,
    position_y := 100, health := 100, score := 0, is_alive := true }

theorem updatePlayerPosition_minimal_write_witness :
    updatePlayerPosition witnessPlayer ["d"] (1/10) = some (120, 100) ∧
    (applyPositionUpdate [witnessPlayer] 7 9 120 100).length = 1 := by
  have hx : newPosX witnessPlayer ["d"] (1/10) = 120 := by
    unfold newPosX
    simp [witnessPlayer, moveSpeed]
    norm_num [min_def, max_def]
  have hy : newPosY witnessPlayer ["d"] (1/10) = 100 := by
    unfold newPosY
    simp [witnessPlayer, moveSpeed]
    norm_num [min_def, max_def]
  have hsome : updatePlayerPosition witnessPlayer ["d"] (1/10) =
      some (120, 100) := by
    unfold updatePlayerPosition
    rw [hx, hy]
    norm_num [witnessPlayer]
  have h := (updatePlayerPosition_minimal_write witnessPlayer ["d"] (1/10)
      [witnessPlayer] 7 9).2 120 100 hsome
  exact ⟨hsome, h.2.2.2.1⟩

/-- Claim C9: whenever a position update is written, the written coordinates
are clamped to the play field: `position_x ∈ [20, 780]`,
`position_y ∈ [20, 580]`, regardless of prior position, keys or delta. -/
theorem updatePlayerPosition_bounds (p : PlayerRow) (keys : List String)
    (dt : ℚ) (nx ny : ℚ)
    (h : updatePlayerPosition p keys dt = some (nx, ny)) :
    20 ≤ nx ∧ nx ≤ 780 ∧ 20 ≤ ny ∧ ny ≤ 580 := by
  have hx : nx = newPosX p keys dt ∧ ny = newPosY p keys dt := by
    unfold updatePlayerPosition at h
    by_cases hc : newPosX p keys dt ≠ p.position_x ∨
        newPosY p keys dt ≠ p.position_y
    · rw [if_pos hc] at h
      obtain ⟨h1, h2⟩ := Prod.mk.injEq .. ▸ Option.some.injEq .. ▸ h
      exact ⟨h1.symm, h2.symm⟩
    · rw [if_neg hc] at h
      exact absurd h (Option.noConfusion ·)
  obtain ⟨h1, h2⟩ := hx
  subst h1; subst h2
  refine ⟨le_max_left _ _, ?_, le_max_left _ _, ?_⟩
  · exact max_le (by norm_num) (min_le_left _ _)
  · exact max_le (by norm_num) (min_le_left _ _)

theorem updatePlayerPosition_bounds_witness :
    20 ≤ (120 : ℚ) ∧ (120 : ℚ) ≤ 780 ∧ 20 ≤ (100 : ℚ) ∧ (100 : ℚ) ≤ 580 :=
  updatePlayerPosition_bounds witnessPlayer ["d"] (1/10) 120 100
    (by
      have hx : newPosX witnessPlayer ["d"] (1/10) = 120 := by
        unfold newPosX
        simp [witnessPlayer, moveSpeed]
        norm_num [min_def, max_def]
      have hy : newPosY witnessPlayer ["d"] (1/10) = 100 := by
        unfold newPosY
        simp [witnessPlayer, moveSpeed]
        norm_num [min_def, max_def]
      unfold updatePlayerPosition
      rw [hx, hy]
      norm_num [witnessPlayer])

/-! ## Lobby join/leave (`joinLobby`, `leaveLobby` in the `Lobby` component)

Database writes, toasts and navigations are reified as `Effect`s, in the
order the component performs them.  A failed insert performs no state
change, so only successful writes appear as state-changing effects. -/

inductive Effect
  | toast (title : String) (variant : String)
  | navigate (path : String)
  | insertGamePlayer (lobbyId playerId : Nat)
  | deleteGamePlayer (lobbyId playerId : Nat)
  | updateLobbyPlayers (lobbyId : Nat) (newCount : ℤ)
deriving DecidableEq, Repr

/-- `joinLobby(lobbyCode)`: `lookup` is the result of the `.single()` query
by uppercased code (`none` covers both an error and a missing row, the
source's `lobbyError || !lobbyData`); `alreadyInLobby` is whether the
existing-player query found a row; `insertError` is the error of the
`game_players` insert, if it failed. -/
def joinLobby (userId : Nat) (lookup : Option LobbyRow)
    (alreadyInLobby : Bool) (insertError : Option String) : List Effect :=
  match lookup with
  | none => [Effect.toast "Lobby not found" "destructive", Effect.navigate "/"]
  | some lobbyData =>
      if alreadyInLobby then []
      else
        match insertError with
        | some _ =>
            [Effect.toast "Failed to join lobby" "destructive",
             Effect.navigate "/"]
        | none =>
            [Effect.insertGamePlayer lobbyData.id userId,
             Effect.updateLobbyPlayers lobbyData.id
               (lobbyData.current_players + 1)]

/-- Claim C5: a failed lobby lookup yields exactly a destructive
"Lobby not found" toast and a redirect to `/` — in particular no
`game_players` insert and no lobby update — and a failed `game_players`
insert likewise yields exactly a destructive toast and a redirect to `/`. -/
theorem joinLobby_failure_redirects (userId : Nat) (lookup : Option LobbyRow)
    (alreadyInLobby : Bool) (insertError : Option String) :
    (lookup = none →
      joinLobby userId lookup alreadyInLobby insertError =
        [Effect.toast "Lobby not found" "destructive", Effect.navigate "/"] ∧
      (∀ l p, Effect.insertGamePlayer l p ∉
        joinLobby userId lookup alreadyInLobby insertError) ∧
      (∀ l n, Effect.updateLobbyPlayers l n ∉
        joinLobby userId lookup alreadyInLobby insertError)) ∧
    (∀ lobbyData msg, lookup = some lobbyData → alreadyInLobby = false →
      insertError = some msg →
      joinLobby userId lookup alreadyInLobby insertError =
        [Effect.toast "Failed to join lobby" "destructive",
         Effect.navigate "/"] ∧
      (∀ l p, Effect.insertGamePlayer l p ∉
        joinLobby userId lookup alreadyInLobby insertError) ∧
      (∀ l n, Effect.updateLobbyPlayers l n ∉
        joinLobby userId lookup alreadyInLobby insertError)) := by
  constructor
  · rintro rfl
    refine ⟨rfl, ?_, ?_⟩ <;> intro l n <;> simp [joinLobby]
  · rintro lobbyData msg rfl rfl rfl
    refine ⟨rfl, ?_, ?_⟩ <;> intro l n <;> simp [joinLobby]

def witnessLobby : LobbyRow :=
  { id := 3, code := ['A', 'B', 'C', '1', '2', '3'], host_id := 5,
    current_players := 2, max_players := 4, status := "waiting" }

theorem joinLobby_failure_redirects_witness :
    joinLobby 9 (some witnessLobby) false (some "duplicate key") =
      [Effect.toast "Failed to join lobby" "destructive",
       Effect.navigate "/"] :=
  ((joinLobby_failure_redirects 9 (some witnessLobby) false
      (some "duplicate key")).2 witnessLobby "duplicate key" rfl rfl rfl).1

/-- `leaveLobby`: deletes the player's `game_players` row, then writes
`current_players = Math.max(0, lobby.current_players - 1)`. -/
def leaveLobby (lobby : LobbyRow) (userId : Nat) : List Effect :=
  [Effect.deleteGamePlayer lobby.id userId,
   Effect.updateLobbyPlayers lobby.id (max 0 (lobby.current_players - 1))]

/-- Claim C10: every player-count write issued by `leaveLobby` stores
`max 0 (n - 1)` for prior count `n ≥ 0`, which is never negative. -/
theorem leaveLobby_count_nonneg (lobby : LobbyRow) (userId : Nat)
    (_h : 0 ≤ lobby.current_players) :
    ∀ l n, Effect.updateLobbyPlayers l n ∈ leaveLobby lobby userId →
      n = max 0 (lobby.current_players - 1) ∧ 0 ≤ n ∧
      (lobby.current_players = 0 → n = 0) ∧
      (1 ≤ lobby.current_players → n = lobby.current_players - 1) := by
  intro l n hmem
  simp only [leaveLobby, List.mem_cons, List.mem_singleton] at hmem
  rcases hmem with hmem | hmem | hmem
  · exact absurd hmem (by simp)
  · obtain ⟨-, hn⟩ := Effect.updateLobbyPlayers.injEq .. ▸ hmem
    subst hn
    refine ⟨rfl, le_max_left _ _, ?_, ?_⟩
    · intro h0; rw [h0]; simp
    · intro h1; rw [max_eq_right (by omega)]
  · exact absurd hmem (List.not_mem_nil _)

theorem leaveLobby_count_nonneg_witness :
    (0 : ℤ) ≤ max 0 (witnessLobby.current_players - 1) :=
  (leaveLobby_count_nonneg witnessLobby 9 (by norm_num [witnessLobby])
    witnessLobby.id (max 0 (witnessLobby.current_players - 1))
    (by simp [leaveLobby])).2.1

/-! ## Lobby status writes (`createLobby` in `Index`, `startGame` in `Lobby`)

The migration declares
`status TEXT DEFAULT 'waiting' CHECK (status IN ('waiting','playing','finished'))`.
The client writes that can touch a `lobbies` row are: the insert in
`createLobby` (which omits `status`, so the default applies), the
`current_players` updates in `joinLobby`/`leaveLobby`, and the `status`
update in `startGame`, guarded by `lobby.host_id !== user?.id`. -/

def lobbyStatusDefault : String := "waiting"

def validLobbyStatus (s : String) : Prop :=
  s = "waiting" ∨ s = "playing" ∨ s = "finished"

/-- One client-issued write against a `lobbies` row: the `createLobby`
insert payload (which carries no `status` column), or an update of a single
column. -/
inductive LobbyWrite
  | insertLobby (code : List Char) (name : String) (hostId : Nat)
      (currentPlayers : ℤ)
  | updateCurrentPlayers (n : ℤ)
  | updateStatus (s : String)
deriving DecidableEq, Repr

/-- The `status` value a write stores, if it stores one.  An insert stores
the schema default because the client payload has no `status` field. -/
def statusWrite : LobbyWrite → Option String
  | LobbyWrite.insertLobby _ _ _ _ => some lobbyStatusDefault
  | LobbyWrite.updateCurrentPlayers _ => none
  | LobbyWrite.updateStatus s => some s

/-- The lobby write of `createLobby`: `{ code, name, host_id, current_players: 0 }`. -/
def createLobbyWrite (code : List Char) (name : String) (hostId : Nat) :
    LobbyWrite :=
  LobbyWrite.insertLobby code name hostId 0

/-- The lobby write of `joinLobby`'s count update. -/
def joinLobbyCountWrite (lobby : LobbyRow) : LobbyWrite :=
  LobbyWrite.updateCurrentPlayers (lobby.current_players + 1)

/-- The lobby write of `leaveLobby`'s count update. -/
def leaveLobbyCountWrite (lobby : LobbyRow) : LobbyWrite :=
  LobbyWrite.updateCurrentPlayers (max 0 (lobby.current_players - 1))

/-- `startGame`: returns early unless a lobby is loaded and the current
user is its host; otherwise it updates `status` to `'playing'`. -/
def startGame (lobby : Option LobbyRow) (userId : Nat) : Option LobbyWrite :=
  match lobby with
  | none => none
  | some l =>
      if l.host_id ≠ userId then none
      else some (LobbyWrite.updateStatus "playing")

/-- Claim C6: the schema default `'waiting'` and the only client-written
status `'playing'` both satisfy the check constraint; the count updates of
`joinLobby`/`leaveLobby` and the `createLobby` insert never set a status
other than the default; and the sole status update is issued by
`startGame`, only when the current user is the lobby's host, and it sets
`'playing'`. -/
theorem lobby_status_writes (lobby : LobbyRow) (userId : Nat)
    (code : List Char) (name : String) (hostId : Nat) :
    validLobbyStatus lobbyStatusDefault ∧
    statusWrite (createLobbyWrite code name hostId) = some lobbyStatusDefault ∧
    statusWrite (joinLobbyCountWrite lobby) = none ∧
    statusWrite (leaveLobbyCountWrite lobby) = none ∧
    startGame none userId = none ∧
    (lobby.host_id ≠ userId → startGame (some lobby) userId = none) ∧
    (∀ w, startGame (some lobby) userId = some w →
      lobby.host_id = userId ∧ w = LobbyWrite.updateStatus "playing" ∧
      statusWrite w = some "playing" ∧ validLobbyStatus "playing") := by
  refine ⟨Or.inl rfl, rfl, rfl, rfl, rfl, ?_, ?_⟩
  · intro hne
    simp [startGame, hne]
  · intro w hw
    by_cases hh : lobby.host_id = userId
    · simp only [startGame, hh, ne_eq, not_true_eq_false, if_false,
        Option.some.injEq] at hw
      exact ⟨hh, hw.symm, by rw [← hw]; rfl, Or.inr (Or.inl rfl)⟩
    · simp [startGame, hh] at hw

theorem lobby_status_writes_witness :
    startGame (some witnessLobby) 5 = some (LobbyWrite.updateStatus "playing") ∧
    validLobbyStatus "playing" := by
  have hsw : startGame (some witnessLobby) 5 =
      some (LobbyWrite.updateStatus "playing") := by
    simp [startGame, witnessLobby]
  have h := ((lobby_status_writes witnessLobby 5 [] "" 0).2.2.2.2.2.2
      (LobbyWrite.updateStatus "playing") hsw)
  exact ⟨hsw, h.2.2.2⟩

/-! ## Lobby codes (`createLobby` in `Index`, lookup in `Lobby`)

`createLobby` builds the code as
`Math.random().toString(36).substring(2, 8).toUpperCase()`.  For a value in
`[0, 1)`, `toString(36)` prints `"0"` when the value is `0` and otherwise
`"0."` followed by base-36 fraction digits (`0-9`, `a-z`, no trailing
zeros); we take that digit list as the model's input.  `substring(2, 8)`
keeps at most the first six fraction digits.  `joinLobby` looks the lobby
up with `.eq('code', lobbyCode.toUpperCase())`.  Strings are modelled as
`List Char`. -/

/-- The character `Number.prototype.toString(36)` prints for one base-36
digit: `'0'..'9'` for 0–9, `'a'..'z'` for 10–35. -/
def digitChar36 (d : Fin 36) : Char :=
  if d.val < 10 then Char.ofNat (48 + d.val) else Char.ofNat (87 + d.val)

/-- `x.toString(36)` for `x ∈ [0, 1)` with fraction digits `ds`. -/
def jsNumToString36Frac (ds : List (Fin 36)) : List Char :=
  match ds with
  | [] => ['0']
  | _ => '0' :: '.' :: ds.map digitChar36

/-- The code `createLobby` stores:
`Math.random().toString(36).substring(2, 8).toUpperCase()`. -/
def createLobbyCode (ds : List (Fin 36)) : List Char :=
  (((jsNumToString36Frac ds).drop 2).take 6).map Char.toUpper

/-- The lookup key `joinLobby` queries with: `lobbyCode.toUpperCase()`. -/
def joinLobbyLookupKey (entered : List Char) : List Char :=
  entered.map Char.toUpper

theorem digitChar36_upper_ok (d : Fin 36) :
    (Char.toUpper (digitChar36 d)).isDigit ∨
    (Char.toUpper (digitChar36 d)).isUpper := by
  revert d; decide

theorem digitChar36_toUpper_idem (d : Fin 36) :
    Char.toUpper (Char.toUpper (digitChar36 d)) =
      Char.toUpper (digitChar36 d) := by
  revert d; decide

theorem mem_createLobbyCode (ds : List (Fin 36)) (c : Char)
    (hc : c ∈ createLobbyCode ds) : ∃ d, c = Char.toUpper (digitChar36 d) := by
  simp only [createLobbyCode, List.mem_map] at hc
  obtain ⟨x, hx, rfl⟩ := hc
  have hx' : x ∈ (jsNumToString36Frac ds).drop 2 := List.take_subset _ _ hx
  cases ds with
  | nil => simp [jsNumToString36Frac] at hx'
  | cons d0 ds' =>
      simp only [jsNumToString36Frac, List.drop_succ_cons, List.drop_zero,
        List.mem_map] at hx'
      obtain ⟨d, _, rfl⟩ := hx'
      exact ⟨d, rfl⟩

theorem map_toUpper_fixed :
    ∀ l : List Char, (∀ c ∈ l, Char.toUpper c = c) →
      l.map Char.toUpper = l := by
  intro l
  induction l with
  | nil => intro _; rfl
  | cons x xs ih =>
      intro hfix
      simp only [List.map_cons, List.cons.injEq]
      exact ⟨hfix x (List.mem_cons_self x xs),
        ih (fun c hc => hfix c (List.mem_cons_of_mem x hc))⟩

/-- Claim C7: a `createLobby` code has at most 6 characters, all digits or
uppercase letters, and since `joinLobby` uppercases the entered code before
the lookup, any entered code whose uppercasing agrees with the stored
code's uppercasing is looked up under exactly the stored code. -/
theorem createLobby_code_format (ds : List (Fin 36)) (entered : List Char) :
    (createLobbyCode ds).length ≤ 6 ∧
    (∀ c ∈ createLobbyCode ds, c.isDigit ∨ c.isUpper) ∧
    (joinLobbyLookupKey entered = joinLobbyLookupKey (createLobbyCode ds) →
      joinLobbyLookupKey entered = createLobbyCode ds) := by
  have hfix : joinLobbyLookupKey (createLobbyCode ds) = createLobbyCode ds := by
    apply map_toUpper_fixed
    intro c hc
    obtain ⟨d, rfl⟩ := mem_createLobbyCode ds c hc
    exact digitChar36_toUpper_idem d
  refine ⟨?_, ?_, ?_⟩
  · simp only [createLobbyCode, List.length_map, List.length_take]
    exact min_le_left _ _
  · intro c hc
    obtain ⟨d, rfl⟩ := mem_createLobbyCode ds c hc
    exact digitChar36_upper_ok d
  · intro hkey
    rw [hkey, hfix]

theorem createLobby_code_format_witness :
    joinLobbyLookupKey ['a', '0'] =
      createLobbyCode [(10 : Fin 36), (0 : Fin 36)] :=
  (createLobby_code_format [(10 : Fin 36), (0 : Fin 36)] ['a', '0']).2.2
    (by decide)

end TargetHueShootout
